import Mathlib

/-!
Verification of the flow-classification engine in `src/main.rs`
(repository `michaelhenkel/acl-test`).

The Rust data structures are shallowly embedded:
* `HashMap<K, V>` becomes an association list `List (K × V)` whose
  `hmInsert` replaces the binding of an existing key in place and
  otherwise appends a fresh binding at the end (upsert, last write wins,
  exactly like `HashMap::insert`);
* `BTreeMap<u32, V>` becomes an association list kept sorted in strictly
  ascending key order (`btInsert` places a new key at its sorted
  position and replaces the value of an existing key); iterating the
  list front to back is the `BTreeMap` ascending iteration order;
* `u32` and `u16` become `Nat` (all operations used by the source —
  bitwise and, equality and `4294967295 - mask` with `mask` itself a
  `u32` value — never overflow, so no `% 2^32` is needed);
* `Rc<T>` is modelled, for the aliasing claim only, by a value paired
  with its strong reference count (`RcCell`), `Rc::get_mut` succeeding
  exactly when the count is 1.
-/

set_option synthInstance.maxSize 512
set_option linter.unusedVariables false
set_option linter.unnecessarySeqFocus false

namespace AclTest

/-- `Action` from `src/main.rs` lines 32-36. -/
inductive Action where
  | Deny : Action
  | Allow : String → Action
deriving DecidableEq, Repr

/-- `Flow` from `src/main.rs` lines 7-16, field for field. -/
structure Flow where
  src_net : Nat
  src_mask : Nat
  dst_net : Nat
  dst_mask : Nat
  src_port : Nat
  dst_port : Nat
  action : Action
deriving DecidableEq, Repr

/-- An `ipnet::Ipv4Net` value: the address exactly as supplied by the
caller (ipnet keeps host bits; `addr()` returns them unchanged) plus the
prefix length. -/
structure Ipv4Net where
  addr : Nat
  len : Nat
deriving DecidableEq, Repr

/-- The netmask of a prefix length, as computed by `ipnet`'s
`Ipv4Net::netmask()`: for `p ≤ 32` this is the `u32` with the top `p`
bits set, i.e. `2^32 - 2^(32-p)`. -/
def netmaskOfLen (p : Nat) : Nat := 2 ^ 32 - 2 ^ (32 - p)

/-- The `BTreeMap` key used by `add_flow`: `4294967295 - netmask`,
equal to `2^(32-p) - 1` for prefix length `p` (proved below). -/
def hostWild (p : Nat) : Nat := 4294967295 - netmaskOfLen p

/-- `Flow::new` from `src/main.rs` lines 18-30.  Note that the source
stores `src_net.addr()` — the address exactly as supplied, host bits
included — and not the masked network address. -/
def Flow.new (src_net : Ipv4Net) (src_port : Nat) (dst_net : Ipv4Net)
    (dst_port : Nat) (action : Action) : Flow :=
  { src_net := src_net.addr
    src_mask := netmaskOfLen src_net.len
    src_port := src_port
    dst_net := dst_net.addr
    dst_mask := netmaskOfLen dst_net.len
    dst_port := dst_port
    action := action }

/-- `HashMap::insert` on an association list: replace the binding of an
existing key in place, otherwise add the binding at the end. -/
def hmInsert {κ ν : Type} [DecidableEq κ] (k : κ) (v : ν) :
    List (κ × ν) → List (κ × ν)
  | [] => [(k, v)]
  | (k', v') :: rest =>
      if k = k' then (k, v) :: rest else (k', v') :: hmInsert k v rest

/-- `HashMap::get` on an association list. -/
def hmGet {κ ν : Type} [DecidableEq κ] (k : κ) : List (κ × ν) → Option ν
  | [] => none
  | (k', v) :: rest => if k = k' then some v else hmGet k rest

/-- `HashMap::get_key_value` on an association list: returns the stored
key together with the value. -/
def hmGetKeyValue {κ ν : Type} [DecidableEq κ] (k : κ) :
    List (κ × ν) → Option (κ × ν)
  | [] => none
  | (k', v) :: rest => if k = k' then some (k', v) else hmGetKeyValue k rest

/-- `BTreeMap::get` on a sorted association list. -/
def btGet {ν : Type} (k : Nat) : List (Nat × ν) → Option ν
  | [] => none
  | (k', v) :: rest => if k = k' then some v else btGet k rest

/-- `BTreeMap::insert` on a sorted association list: place a new key at
its sorted position, replace the value of an existing key. -/
def btInsert {ν : Type} (k : Nat) (v : ν) : List (Nat × ν) → List (Nat × ν)
  | [] => [(k, v)]
  | (k', v') :: rest =>
      if k < k' then (k, v) :: (k', v') :: rest
      else if k = k' then (k, v) :: rest
      else (k', v') :: btInsert k v rest

/-- The per-address-field index: `BTreeMap<u32, HashMap<(u32,u16), bool>>`. -/
abbrev NetMap := List (Nat × List ((Nat × Nat) × Bool))

/-- The exact-match table: `HashMap<(u32,u32,u16,u32,u32,u16), Action>`. -/
abbrev ExactMap := List ((Nat × Nat × Nat × Nat × Nat × Nat) × Action)

/-- `FlowTable` from `src/main.rs` lines 38-43 (the `Rc` wrappers are
dropped here; the aliasing behaviour of `Rc` is modelled separately for
the claim about `Rc::get_mut`). -/
structure FlowTable where
  src_map : NetMap
  dst_map : NetMap
  flow_map : ExactMap
deriving DecidableEq, Repr

/-- `FlowTable::new` from `src/main.rs` lines 46-52. -/
def FlowTable.new : FlowTable := ⟨[], [], []⟩

/-- The per-map body of `add_flow` (`src/main.rs` lines 54-80): look the
mask key up, insert the `(net, port) ↦ true` entry into the existing
inner map, or create a fresh single-entry inner map. -/
def idxInsert (key net port : Nat) (m : NetMap) : NetMap :=
  match btGet key m with
  | some inner => btInsert key (hmInsert (net, port) true inner) m
  | none => btInsert key (hmInsert (net, port) true []) m

/-- `FlowTable::add_flow` from `src/main.rs` lines 53-84. -/
def FlowTable.add_flow (t : FlowTable) (flow : Flow) : FlowTable :=
  let src_key := 4294967295 - flow.src_mask
  let src_map := idxInsert src_key flow.src_net flow.src_port t.src_map
  let dst_key := 4294967295 - flow.dst_mask
  let dst_map := idxInsert dst_key flow.dst_net flow.dst_port t.dst_map
  let flow_map := hmInsert
    (flow.src_net, flow.src_mask, flow.src_port,
     flow.dst_net, flow.dst_mask, flow.dst_port) flow.action t.flow_map
  ⟨src_map, dst_map, flow_map⟩

/-- `Packet` from `src/main.rs` lines 164-170. -/
structure Packet where
  src_ip : Nat
  dst_ip : Nat
  src_port : Nat
  dst_port : Nat
deriving DecidableEq, Repr

/-- `get_net_port` from `src/main.rs` lines 151-162: walk the
`BTreeMap` in ascending key order; at each key recompute the netmask
as `4294967295 - key`, mask the address with it, and return the stored
`(net, mask, port)` of the first inner-map hit. -/
def get_net_port (ip port : Nat) : NetMap → Option (Nat × Nat × Nat)
  | [] => none
  | (mask, inner) :: rest =>
      let mask_bin := 4294967295 - mask
      let masked := Nat.land ip mask_bin
      match hmGetKeyValue (masked, port) inner with
      | some ((net, prt), _) => some (net, mask_bin, prt)
      | none => get_net_port ip port rest

/-- `FlowTable::match_flow` from `src/main.rs` lines 110-148: the
four-step port cascade.  Each `is_some && is_some` guard followed by
`unwrap`s is rendered as a match on the pair of options; an unmatched
guard falls through to the next step exactly as in the source. -/
def FlowTable.match_flow (t : FlowTable) (packet : Packet) : Option Action :=
  let src_net_specific := get_net_port packet.src_ip packet.src_port t.src_map
  let dst_net_specific := get_net_port packet.dst_ip packet.dst_port t.dst_map
  match src_net_specific, dst_net_specific with
  | some (src_net, src_mask, src_port), some (dst_net, dst_mask, dst_port) =>
      hmGet (src_net, src_mask, src_port, dst_net, dst_mask, dst_port) t.flow_map
  | _, _ =>
    let src_net_0 := get_net_port packet.src_ip 0 t.src_map
    match src_net_0, dst_net_specific with
    | some (src_net, src_mask, src_port), some (dst_net, dst_mask, dst_port) =>
        hmGet (src_net, src_mask, src_port, dst_net, dst_mask, dst_port) t.flow_map
    | _, _ =>
      let dst_net_0 := get_net_port packet.dst_ip 0 t.dst_map
      match src_net_specific, dst_net_0 with
      | some (src_net, src_mask, src_port), some (dst_net, dst_mask, dst_port) =>
          hmGet (src_net, src_mask, src_port, dst_net, dst_mask, dst_port) t.flow_map
      | _, _ =>
        match src_net_0, dst_net_0 with
        | some (src_net, src_mask, src_port), some (dst_net, dst_mask, dst_port) =>
            hmGet (src_net, src_mask, src_port, dst_net, dst_mask, dst_port) t.flow_map
        | _, _ => none

/-- A table holding exactly two rules, inserted in the given order. -/
def twoRuleTable (f g : Flow) : FlowTable :=
  (FlowTable.new.add_flow f).add_flow g

/-! ### The cascade, stated the way the spec words it

The following definitions follow the spec's description of the
classifier (§4.3): four port combinations tried in order of decreasing
specificity, a step's exact lookup attempted exactly when both of the
step's address lookups succeed, and the result of the first qualifying
step returned unconditionally.  `match_flow` is proved equal to this
characterisation below. -/

/-- The (source, destination) port pattern pair used by cascade step
`i ∈ {1,2,3,4}`. -/
def stepPorts (p : Packet) : Nat → Nat × Nat
  | 1 => (p.src_port, p.dst_port)
  | 2 => (0, p.dst_port)
  | 3 => (p.src_port, 0)
  | _ => (0, 0)

/-- Whether both address lookups of cascade step `i` succeed. -/
def stepHit (t : FlowTable) (p : Packet) (i : Nat) : Bool :=
  (get_net_port p.src_ip (stepPorts p i).1 t.src_map).isSome &&
  (get_net_port p.dst_ip (stepPorts p i).2 t.dst_map).isSome

/-- The first cascade step whose two address lookups both succeed. -/
def matchStep (t : FlowTable) (p : Packet) : Option Nat :=
  if stepHit t p 1 then some 1
  else if stepHit t p 2 then some 2
  else if stepHit t p 3 then some 3
  else if stepHit t p 4 then some 4
  else none

/-- The exact-match-table result of cascade step `i`: the resolved
source and destination `(net, mask, port)` triples are combined into
the six-component key and looked up. -/
def stepExact (t : FlowTable) (p : Packet) (i : Nat) : Option Action :=
  match get_net_port p.src_ip (stepPorts p i).1 t.src_map,
        get_net_port p.dst_ip (stepPorts p i).2 t.dst_map with
  | some (sn, sm, sp), some (dn, dm, dp) =>
      hmGet (sn, sm, sp, dn, dm, dp) t.flow_map
  | _, _ => none

/-- The spec's cascade: return the exact-table result of the first
step whose address lookups both succeed — even when that result is
`none` — and `none` when no step qualifies. -/
def cascadeSpec (t : FlowTable) (p : Packet) : Option Action :=
  match matchStep t p with
  | some i => stepExact t p i
  | none => none

theorem match_flow_eq_cascadeSpec (t : FlowTable) (p : Packet) :
    t.match_flow p = cascadeSpec t p := by
  rcases h1 : get_net_port p.src_ip p.src_port t.src_map with _ | ⟨sn, sm, sp⟩ <;>
    rcases h2 : get_net_port p.dst_ip p.dst_port t.dst_map with _ | ⟨dn, dm, dp⟩ <;>
    rcases h3 : get_net_port p.src_ip 0 t.src_map with _ | ⟨sn0, sm0, sp0⟩ <;>
    rcases h4 : get_net_port p.dst_ip 0 t.dst_map with _ | ⟨dn0, dm0, dp0⟩ <;>
    simp [FlowTable.match_flow, cascadeSpec, matchStep, stepHit, stepExact,
      stepPorts, h1, h2, h3, h4]

/-- The table built from the overlapping pair of `main.rs`: the /23
specific rule `5.0.0.0/23 → 6.0.0.0/23 ↦ Allow "int3"` inserted first,
the catch-all `0.0.0.0/0 → 0.0.0.0/0 ↦ Allow "int4"` second. -/
def specCatchTable : FlowTable :=
  twoRuleTable
    (Flow.new ⟨0x05000000, 23⟩ 0 ⟨0x06000000, 23⟩ 0 (Action.Allow "int3"))
    (Flow.new ⟨0, 0⟩ 0 ⟨0, 0⟩ 0 (Action.Allow "int4"))

/-- **C3**: for every table and packet, `match_flow` returns the
exact-match result of the first cascade step whose source and
destination address lookups both succeed — even when that result is
no-match — and never falls through to a later port combination nor
backtracks to a less specific address resolution (this is the content
of the equality with `cascadeSpec`, whose first qualifying step is
final).  The second conjunct exhibits the documented consequence: in
the specific+catch-all table, the packet `5.0.0.1 → 9.9.9.9` resolves
its source to the /23 entry and its destination to the /0 entry, no
rule is registered for that pairing, and classification reports
no-match even though the catch-all rule (present in the table, third
conjunct) covers the packet. -/
theorem c3_first_hit_is_final :
    (∀ (t : FlowTable) (p : Packet), t.match_flow p = cascadeSpec t p) ∧
    specCatchTable.match_flow ⟨0x05000001, 0x09090909, 0, 0⟩ = none ∧
    hmGet (0, 0, 0, 0, 0, 0) specCatchTable.flow_map =
      some (Action.Allow "int4") :=
  ⟨match_flow_eq_cascadeSpec, by decide, by decide⟩

/-! ### Arithmetic facts about netmasks and the `BTreeMap` keys -/

theorem two_pow_32 : (2 : Nat) ^ 32 = 4294967296 := by norm_num

theorem netmaskOfLen_le (p : Nat) : netmaskOfLen p ≤ 4294967295 := by
  have h1 : 1 ≤ 2 ^ (32 - p) := Nat.one_le_two_pow
  have h2 := two_pow_32
  unfold netmaskOfLen
  omega

/-- Recomputing the netmask from the stored key, as `get_net_port`
does with `4294967295 - mask`. -/
theorem maskBin_hostWild (p : Nat) :
    4294967295 - hostWild p = netmaskOfLen p := by
  have := netmaskOfLen_le p
  unfold hostWild
  omega

theorem key_hostWild (p : Nat) : 4294967295 - netmaskOfLen p = hostWild p := rfl

/-- The `BTreeMap` key of prefix length `p` is the host-bits wildcard
mask `2^(32-p) - 1`. -/
theorem hostWild_key (p : Nat) (hp : p ≤ 32) : hostWild p = 2 ^ (32 - p) - 1 := by
  have h1 : 2 ^ (32 - p) ≤ 2 ^ 32 := Nat.pow_le_pow_right (by norm_num) (by omega)
  have h2 : 1 ≤ 2 ^ (32 - p) := Nat.one_le_two_pow
  have h3 := two_pow_32
  unfold hostWild netmaskOfLen
  omega

/-- The key order is strictly antitone in the prefix length: longer
prefixes sit at smaller keys and are visited first. -/
theorem hostWild_lt_hostWild {a b : Nat} (ha : a ≤ 32) (hb : b ≤ 32) :
    hostWild a < hostWild b ↔ b < a := by
  rw [hostWild_key a ha, hostWild_key b hb]
  have h1 : 1 ≤ 2 ^ (32 - a) := Nat.one_le_two_pow
  have h2 : 1 ≤ 2 ^ (32 - b) := Nat.one_le_two_pow
  rw [show (2 ^ (32 - a) - 1 < 2 ^ (32 - b) - 1) ↔ (2 ^ (32 - a) < 2 ^ (32 - b))
    from by omega]
  rw [Nat.pow_lt_pow_iff_right (by norm_num)]
  omega

theorem hostWild_inj {a b : Nat} (ha : a ≤ 32) (hb : b ≤ 32)
    (h : hostWild a = hostWild b) : a = b := by
  rcases Nat.lt_trichotomy a b with hab | hab | hab
  · exact absurd ((hostWild_lt_hostWild hb ha).mpr hab) (by omega)
  · exact hab
  · exact absurd ((hostWild_lt_hostWild ha hb).mpr hab) (by omega)

theorem hostWild_lt_top {p : Nat} (h1 : 1 ≤ p) (h2 : p ≤ 32) :
    hostWild p < 4294967295 := by
  rw [hostWild_key p h2]
  have h3 : 2 ^ (32 - p) ≤ 2 ^ 31 := Nat.pow_le_pow_right (by norm_num) (by omega)
  have h4 : (2 : Nat) ^ 31 = 2147483648 := by norm_num
  omega

theorem netmaskOfLen_pos {p : Nat} (h1 : 1 ≤ p) (h2 : p ≤ 32) :
    netmaskOfLen p ≠ 0 := by
  have h3 : 2 ^ (32 - p) ≤ 2 ^ 31 := Nat.pow_le_pow_right (by norm_num) (by omega)
  have h4 : (2 : Nat) ^ 31 = 2147483648 := by norm_num
  have h5 := two_pow_32
  unfold netmaskOfLen
  omega

theorem land_land (a m : Nat) : Nat.land (Nat.land a m) m = Nat.land a m := by
  show a &&& m &&& m = a &&& m
  apply Nat.eq_of_testBit_eq
  intro i
  simp [Nat.testBit_land, Bool.and_assoc]

theorem land_zero (a : Nat) : Nat.land a 0 = 0 := by
  show a &&& 0 = 0
  apply Nat.eq_of_testBit_eq
  intro i
  simp [Nat.testBit_land]

/-! ### `get_net_port` on small index shapes -/

/-- Lookup in an index holding one prefix length with one entry. -/
theorem gnp_one (ip pr net prt p : Nat) :
    get_net_port ip pr [(hostWild p, [((net, prt), true)])] =
      if Nat.land ip (netmaskOfLen p) = net ∧ pr = prt then
        some (net, netmaskOfLen p, prt)
      else none := by
  by_cases h1 : Nat.land ip (netmaskOfLen p) = net <;> by_cases h2 : pr = prt <;>
    simp [get_net_port, hmGetKeyValue, maskBin_hostWild, Prod.mk.injEq, h1, h2]

/-- Lookup in an index holding one prefix length with the same network
registered at an explicit port `q` and at the wildcard port `0`. -/
theorem gnp_two_ports (ip pr net q p : Nat) :
    get_net_port ip pr [(hostWild p, [((net, q), true), ((net, 0), true)])] =
      if Nat.land ip (netmaskOfLen p) = net ∧ pr = q then
        some (net, netmaskOfLen p, q)
      else if Nat.land ip (netmaskOfLen p) = net ∧ pr = 0 then
        some (net, netmaskOfLen p, 0)
      else none := by
  by_cases h1 : Nat.land ip (netmaskOfLen p) = net <;> by_cases h2 : pr = q <;>
    by_cases h3 : pr = 0 <;>
    simp [get_net_port, hmGetKeyValue, maskBin_hostWild, Prod.mk.injEq, h1, h2, h3] <;>
    split <;> simp_all

/-- Lookup in an index holding a specific prefix and the catch-all
prefix length 0, both registered at the wildcard port. -/
theorem gnp_spec_catch (ip pr net p : Nat) :
    get_net_port ip pr
      [(hostWild p, [((net, 0), true)]), (4294967295, [((0, 0), true)])] =
      if Nat.land ip (netmaskOfLen p) = net ∧ pr = 0 then
        some (net, netmaskOfLen p, 0)
      else if pr = 0 then some (0, 0, 0)
      else none := by
  by_cases h1 : Nat.land ip (netmaskOfLen p) = net <;> by_cases h2 : pr = 0 <;>
    simp [get_net_port, hmGetKeyValue, maskBin_hostWild, Prod.mk.injEq,
      land_zero, h1, h2]

/-- Resolving a step of the cascade once both of its address lookups
are known to succeed. -/
theorem stepExact_eq (t : FlowTable) (p : Packet) (i sn sm sp dn dm dp : Nat)
    (hs : get_net_port p.src_ip (stepPorts p i).1 t.src_map = some (sn, sm, sp))
    (hd : get_net_port p.dst_ip (stepPorts p i).2 t.dst_map = some (dn, dm, dp)) :
    stepExact t p i = hmGet (sn, sm, sp, dn, dm, dp) t.flow_map := by
  unfold stepExact
  rw [hs, hd]

theorem cascadeSpec_eq_of_step (t : FlowTable) (p : Packet) (i : Nat)
    (h : matchStep t p = some i) : cascadeSpec t p = stepExact t p i := by
  unfold cascadeSpec
  rw [h]

theorem cascadeSpec_eq_none (t : FlowTable) (p : Packet)
    (h : matchStep t p = none) : cascadeSpec t p = none := by
  unfold cascadeSpec
  rw [h]

/-! ### C2: the four-step cascade order -/

/-- The single-rule table of the spec's scenario 5: a rule keyed at the
explicit source port 81 with wildcard destination port. -/
def t81 : FlowTable :=
  FlowTable.new.add_flow
    (Flow.new ⟨0x05000000, 24⟩ 81 ⟨0x06000000, 24⟩ 0 (Action.Allow "r81"))

/-- **C2** (amended): `match_flow` tries exactly the four port
combinations `(src, dst)`, `(0, dst)`, `(src, 0)`, `(0, 0)` in this
order, attempting a step's exact-table lookup exactly when both of that
step's address lookups succeed and returning the first qualifying
step's result (the equality with `cascadeSpec`; the per-step lookups
are pure, so recomputing them per step and caching them as the source
does are extensionally the same).  A rule registered at explicit src
port 81 with wildcard dst port is resolved via the third
(specific-src/wildcard-dst) step for every packet with src port 81 and
**nonzero** dst port; the claim's "any dst port" fails at dst port 0,
where the first step already qualifies (see the counterexample). -/
theorem c2_cascade_order :
    (∀ (t : FlowTable) (p : Packet), t.match_flow p = cascadeSpec t p) ∧
    (∀ pd : Nat, pd ≠ 0 →
      matchStep t81 ⟨0x05000001, 0x06000001, 81, pd⟩ = some 3 ∧
      t81.match_flow ⟨0x05000001, 0x06000001, 81, pd⟩ =
        some (Action.Allow "r81")) := by
  refine ⟨match_flow_eq_cascadeSpec, fun pd hpd => ?_⟩
  have hsrc : t81.src_map = [(hostWild 24, [((0x05000000, 81), true)])] := by decide
  have hdst : t81.dst_map = [(hostWild 24, [((0x06000000, 0), true)])] := by decide
  have hls : Nat.land 0x05000001 (netmaskOfLen 24) = 0x05000000 := by decide
  have hld : Nat.land 0x06000001 (netmaskOfLen 24) = 0x06000000 := by decide
  have h1 : get_net_port 0x05000001 81 t81.src_map =
      some (0x05000000, netmaskOfLen 24, 81) := by
    rw [hsrc, gnp_one]; simp [hls]
  have h2 : get_net_port 0x05000001 0 t81.src_map = none := by
    rw [hsrc, gnp_one]; simp [hls]
  have h3 : get_net_port 0x06000001 pd t81.dst_map = none := by
    rw [hdst, gnp_one]; simp [hld, hpd]
  have h4 : get_net_port 0x06000001 0 t81.dst_map =
      some (0x06000000, netmaskOfLen 24, 0) := by
    rw [hdst, gnp_one]; simp [hld]
  have hstep : matchStep t81 ⟨0x05000001, 0x06000001, 81, pd⟩ = some 3 := by
    simp [matchStep, stepHit, stepPorts, h1, h2, h3, h4]
  refine ⟨hstep, ?_⟩
  rw [match_flow_eq_cascadeSpec, cascadeSpec_eq_of_step t81 _ 3 hstep,
    stepExact_eq t81 _ 3 _ _ _ _ _ _ h1 h4]
  decide

/-- **C2, counterexample**: for the same rule (explicit src port 81,
wildcard dst port), a packet with src port 81 and dst port 0 — "any dst
port" includes 0 — is resolved by the **first** cascade step, not the
third: the destination lookup at the explicit port 0 already succeeds
against the wildcard-port entry, because the wildcard is the literal
port value 0. -/
theorem c2_counterexample :
    matchStep t81 ⟨0x05000001, 0x06000001, 81, 0⟩ = some 1 ∧
    matchStep t81 ⟨0x05000001, 0x06000001, 81, 0⟩ ≠ some 3 ∧
    t81.match_flow ⟨0x05000001, 0x06000001, 81, 0⟩ =
      some (Action.Allow "r81") := by
  decide

/-- Witness for `c2_cascade_order` at the concrete dst port 7. -/
theorem c2_cascade_order_witness :
    (7 : Nat) ≠ 0 ∧
    (matchStep t81 ⟨0x05000001, 0x06000001, 81, 7⟩ = some 3 ∧
     t81.match_flow ⟨0x05000001, 0x06000001, 81, 7⟩ =
       some (Action.Allow "r81")) :=
  ⟨by decide, c2_cascade_order.2 7 (by decide)⟩

/-! ### C1: longest-prefix precedence over a catch-all rule -/

/-- The table state after inserting a specific rule (prefix lengths
`pS`, `pD`, wildcard ports) and then the catch-all rule. -/
theorem specCatch_maps (netS pS netD pD : Nat) (aS aC : Action)
    (hS1 : 1 ≤ pS) (hS2 : pS ≤ 32) (hD1 : 1 ≤ pD) (hD2 : pD ≤ 32) :
    twoRuleTable (Flow.new ⟨netS, pS⟩ 0 ⟨netD, pD⟩ 0 aS)
        (Flow.new ⟨0, 0⟩ 0 ⟨0, 0⟩ 0 aC) =
      ⟨[(hostWild pS, [((netS, 0), true)]), (4294967295, [((0, 0), true)])],
       [(hostWild pD, [((netD, 0), true)]), (4294967295, [((0, 0), true)])],
       [((netS, netmaskOfLen pS, 0, netD, netmaskOfLen pD, 0), aS),
        ((0, 0, 0, 0, 0, 0), aC)]⟩ := by
  have hks : hostWild pS < 4294967295 := hostWild_lt_top hS1 hS2
  have hkd : hostWild pD < 4294967295 := hostWild_lt_top hD1 hD2
  have hneS : (4294967295 : Nat) ≠ hostWild pS := by omega
  have hnltS : ¬(4294967295 : Nat) < hostWild pS := by omega
  have hneD : (4294967295 : Nat) ≠ hostWild pD := by omega
  have hnltD : ¬(4294967295 : Nat) < hostWild pD := by omega
  have hms : (0 : Nat) ≠ netmaskOfLen pS := Ne.symm (netmaskOfLen_pos hS1 hS2)
  have hkey : ¬((0, 0, 0, 0, 0, 0) : Nat × Nat × Nat × Nat × Nat × Nat) =
      (netS, netmaskOfLen pS, 0, netD, netmaskOfLen pD, 0) := by
    intro h
    exact hms (congrArg (fun x => x.2.1) h)
  have h0 : netmaskOfLen 0 = 0 := by norm_num [netmaskOfLen]
  simp [twoRuleTable, FlowTable.add_flow, FlowTable.new, idxInsert, btGet,
    btInsert, hmInsert, Flow.new, key_hostWild, h0, Prod.mk.injEq, hneS,
    hnltS, hneD, hnltD, hms, hkey, -Prod.mk_zero_zero]

/-- The resolved cascade when (for the given packet) both indices
succeed exactly at the wildcard port, each with a fixed result triple:
whatever the packet's ports, the first qualifying step combines the two
triples, so classification is their joint exact lookup. -/
theorem cascade_wildcard_only (t : FlowTable) (p : Packet)
    (sn sm sq dn dm dq : Nat)
    (hs : ∀ q, get_net_port p.src_ip q t.src_map =
      if q = 0 then some (sn, sm, sq) else none)
    (hd : ∀ q, get_net_port p.dst_ip q t.dst_map =
      if q = 0 then some (dn, dm, dq) else none) :
    t.match_flow p = hmGet (sn, sm, sq, dn, dm, dq) t.flow_map := by
  rw [match_flow_eq_cascadeSpec]
  by_cases hsp : p.src_port = 0 <;> by_cases hdp : p.dst_port = 0
  · have hstep : matchStep t p = some 1 := by
      simp [matchStep, stepHit, stepPorts, hs, hd, hsp, hdp]
    rw [cascadeSpec_eq_of_step _ _ 1 hstep,
      stepExact_eq t p 1 sn sm sq dn dm dq (by simp [stepPorts, hs, hsp])
        (by simp [stepPorts, hd, hdp])]
  · have hstep : matchStep t p = some 3 := by
      simp [matchStep, stepHit, stepPorts, hs, hd, hsp, hdp]
    rw [cascadeSpec_eq_of_step _ _ 3 hstep,
      stepExact_eq t p 3 sn sm sq dn dm dq (by simp [stepPorts, hs, hsp])
        (by simp [stepPorts, hd])]
  · have hstep : matchStep t p = some 2 := by
      simp [matchStep, stepHit, stepPorts, hs, hd, hsp, hdp]
    rw [cascadeSpec_eq_of_step _ _ 2 hstep,
      stepExact_eq t p 2 sn sm sq dn dm dq (by simp [stepPorts, hs])
        (by simp [stepPorts, hd, hdp])]
  · have hstep : matchStep t p = some 4 := by
      simp [matchStep, stepHit, stepPorts, hs, hd, hsp, hdp]
    rw [cascadeSpec_eq_of_step _ _ 4 hstep,
      stepExact_eq t p 4 sn sm sq dn dm dq (by simp [stepPorts, hs])
        (by simp [stepPorts, hd])]

/-- **C1**: in a table holding a catch-all rule (prefix length 0 on
both sides) and a more specific overlapping rule with a different
action, both at wildcard ports, every packet whose source and
destination addresses lie inside the specific rule's ranges classifies
to the specific action — never the catch-all's — and every packet with
both addresses outside the specific ranges (the catch-all covers every
packet) classifies to the catch-all action.  Packets with exactly one
address inside the specific range are the no-match gap stated by C3. -/
theorem c1_longest_prefix_wins (netS pS netD pD : Nat) (aS aC : Action)
    (hS1 : 1 ≤ pS) (hS2 : pS ≤ 32) (hD1 : 1 ≤ pD) (hD2 : pD ≤ 32)
    (hact : aS ≠ aC) (p : Packet) :
    (Nat.land p.src_ip (netmaskOfLen pS) = netS →
     Nat.land p.dst_ip (netmaskOfLen pD) = netD →
     (twoRuleTable (Flow.new ⟨netS, pS⟩ 0 ⟨netD, pD⟩ 0 aS)
        (Flow.new ⟨0, 0⟩ 0 ⟨0, 0⟩ 0 aC)).match_flow p = some aS) ∧
    (Nat.land p.src_ip (netmaskOfLen pS) ≠ netS →
     Nat.land p.dst_ip (netmaskOfLen pD) ≠ netD →
     (twoRuleTable (Flow.new ⟨netS, pS⟩ 0 ⟨netD, pD⟩ 0 aS)
        (Flow.new ⟨0, 0⟩ 0 ⟨0, 0⟩ 0 aC)).match_flow p = some aC) := by
  have hmaps := specCatch_maps netS pS netD pD aS aC hS1 hS2 hD1 hD2
  have hsm : (twoRuleTable (Flow.new ⟨netS, pS⟩ 0 ⟨netD, pD⟩ 0 aS)
      (Flow.new ⟨0, 0⟩ 0 ⟨0, 0⟩ 0 aC)).src_map =
      [(hostWild pS, [((netS, 0), true)]), (4294967295, [((0, 0), true)])] := by
    rw [hmaps]
  have hdm : (twoRuleTable (Flow.new ⟨netS, pS⟩ 0 ⟨netD, pD⟩ 0 aS)
      (Flow.new ⟨0, 0⟩ 0 ⟨0, 0⟩ 0 aC)).dst_map =
      [(hostWild pD, [((netD, 0), true)]), (4294967295, [((0, 0), true)])] := by
    rw [hmaps]
  have hfm : (twoRuleTable (Flow.new ⟨netS, pS⟩ 0 ⟨netD, pD⟩ 0 aS)
      (Flow.new ⟨0, 0⟩ 0 ⟨0, 0⟩ 0 aC)).flow_map =
      [((netS, netmaskOfLen pS, 0, netD, netmaskOfLen pD, 0), aS),
       ((0, 0, 0, 0, 0, 0), aC)] := by
    rw [hmaps]
  refine ⟨fun hin1 hin2 => ?_, fun hout1 hout2 => ?_⟩
  · have hs : ∀ q, get_net_port p.src_ip q (twoRuleTable
        (Flow.new ⟨netS, pS⟩ 0 ⟨netD, pD⟩ 0 aS)
        (Flow.new ⟨0, 0⟩ 0 ⟨0, 0⟩ 0 aC)).src_map =
        if q = 0 then some (netS, netmaskOfLen pS, 0) else none := fun q => by
      rw [hsm, gnp_spec_catch]
      by_cases hq : q = 0 <;> simp [hin1, hq]
    have hd : ∀ q, get_net_port p.dst_ip q (twoRuleTable
        (Flow.new ⟨netS, pS⟩ 0 ⟨netD, pD⟩ 0 aS)
        (Flow.new ⟨0, 0⟩ 0 ⟨0, 0⟩ 0 aC)).dst_map =
        if q = 0 then some (netD, netmaskOfLen pD, 0) else none := fun q => by
      rw [hdm, gnp_spec_catch]
      by_cases hq : q = 0 <;> simp [hin2, hq]
    rw [cascade_wildcard_only _ p _ _ _ _ _ _ hs hd, hfm]
    simp [hmGet]
  · have hs : ∀ q, get_net_port p.src_ip q (twoRuleTable
        (Flow.new ⟨netS, pS⟩ 0 ⟨netD, pD⟩ 0 aS)
        (Flow.new ⟨0, 0⟩ 0 ⟨0, 0⟩ 0 aC)).src_map =
        if q = 0 then some (0, 0, 0) else none := fun q => by
      rw [hsm, gnp_spec_catch]
      simp [hout1]
    have hd : ∀ q, get_net_port p.dst_ip q (twoRuleTable
        (Flow.new ⟨netS, pS⟩ 0 ⟨netD, pD⟩ 0 aS)
        (Flow.new ⟨0, 0⟩ 0 ⟨0, 0⟩ 0 aC)).dst_map =
        if q = 0 then some (0, 0, 0) else none := fun q => by
      rw [hdm, gnp_spec_catch]
      simp [hout2]
    rw [cascade_wildcard_only _ p _ _ _ _ _ _ hs hd, hfm]
    have hms : (0 : Nat) ≠ netmaskOfLen pS := Ne.symm (netmaskOfLen_pos hS1 hS2)
    have hkey : ¬((0, 0, 0, 0, 0, 0) : Nat × Nat × Nat × Nat × Nat × Nat) =
        (netS, netmaskOfLen pS, 0, netD, netmaskOfLen pD, 0) := by
      intro h
      exact hms (congrArg (fun x => x.2.1) h)
    simp [hmGet, hkey, -Prod.mk_zero_zero]

/-- Witness for `c1_longest_prefix_wins`, at the /23 pair of `main.rs`:
`5.0.0.1 → 6.0.0.1` (ports 9/9) classifies to the specific action and
`10.0.0.1 → 11.0.0.1` to the catch-all action. -/
theorem c1_longest_prefix_wins_witness :
    ((1 : Nat) ≤ 23 ∧ (23 : Nat) ≤ 32 ∧
      Action.Allow "int3" ≠ Action.Allow "int4" ∧
      Nat.land 0x05000001 (netmaskOfLen 23) = 0x05000000 ∧
      Nat.land 0x0a000001 (netmaskOfLen 23) ≠ 0x05000000) ∧
    (twoRuleTable (Flow.new ⟨0x05000000, 23⟩ 0 ⟨0x06000000, 23⟩ 0
        (Action.Allow "int3")) (Flow.new ⟨0, 0⟩ 0 ⟨0, 0⟩ 0
        (Action.Allow "int4"))).match_flow ⟨0x05000001, 0x06000001, 9, 9⟩ =
      some (Action.Allow "int3") ∧
    (twoRuleTable (Flow.new ⟨0x05000000, 23⟩ 0 ⟨0x06000000, 23⟩ 0
        (Action.Allow "int3")) (Flow.new ⟨0, 0⟩ 0 ⟨0, 0⟩ 0
        (Action.Allow "int4"))).match_flow ⟨0x0a000001, 0x0b000001, 9, 9⟩ =
      some (Action.Allow "int4") :=
  ⟨⟨by decide, by decide, by decide, by decide, by decide⟩,
   (c1_longest_prefix_wins 0x05000000 23 0x06000000 23
      (Action.Allow "int3") (Action.Allow "int4") (by decide) (by decide)
      (by decide) (by decide) (by decide) ⟨0x05000001, 0x06000001, 9, 9⟩).1
      (by decide) (by decide),
   (c1_longest_prefix_wins 0x05000000 23 0x06000000 23
      (Action.Allow "int3") (Action.Allow "int4") (by decide) (by decide)
      (by decide) (by decide) (by decide) ⟨0x0a000001, 0x0b000001, 9, 9⟩).2
      (by decide) (by decide)⟩

/-! ### C5: explicit-port precedence over the wildcard port -/

/-- Table state for two rules identical in address prefixes, the first
keyed at the explicit source port `q`, the second at the wildcard
source port. -/
theorem portPair_mapsA (netS pS netD pD q : Nat) (aE aW : Action) (hq : q ≠ 0) :
    twoRuleTable (Flow.new ⟨netS, pS⟩ q ⟨netD, pD⟩ 0 aE)
        (Flow.new ⟨netS, pS⟩ 0 ⟨netD, pD⟩ 0 aW) =
      ⟨[(hostWild pS, [((netS, q), true), ((netS, 0), true)])],
       [(hostWild pD, [((netD, 0), true)])],
       [((netS, netmaskOfLen pS, q, netD, netmaskOfLen pD, 0), aE),
        ((netS, netmaskOfLen pS, 0, netD, netmaskOfLen pD, 0), aW)]⟩ := by
  have h0q : (0 : Nat) ≠ q := Ne.symm hq
  simp [twoRuleTable, FlowTable.add_flow, FlowTable.new, idxInsert, btGet,
    btInsert, hmInsert, Flow.new, key_hostWild, Prod.mk.injEq, h0q]

/-- Table state for two rules identical in address prefixes, the first
keyed at the explicit destination port `q`, the second at the wildcard
destination port. -/
theorem portPair_mapsB (netS pS netD pD q : Nat) (aE aW : Action) (hq : q ≠ 0) :
    twoRuleTable (Flow.new ⟨netS, pS⟩ 0 ⟨netD, pD⟩ q aE)
        (Flow.new ⟨netS, pS⟩ 0 ⟨netD, pD⟩ 0 aW) =
      ⟨[(hostWild pS, [((netS, 0), true)])],
       [(hostWild pD, [((netD, q), true), ((netD, 0), true)])],
       [((netS, netmaskOfLen pS, 0, netD, netmaskOfLen pD, q), aE),
        ((netS, netmaskOfLen pS, 0, netD, netmaskOfLen pD, 0), aW)]⟩ := by
  have h0q : (0 : Nat) ≠ q := Ne.symm hq
  simp [twoRuleTable, FlowTable.add_flow, FlowTable.new, idxInsert, btGet,
    btInsert, hmInsert, Flow.new, key_hostWild, Prod.mk.injEq, h0q]

/-- The resolved cascade when the source index hits at the explicit
port `q` (and at the wildcard) while the destination index hits only at
the wildcard: the explicit source entry wins at step 1 or step 3. -/
theorem cascade_src_explicit (t : FlowTable) (p : Packet)
    (netS mS q netD mD : Nat) (hq0 : (0 : Nat) ≠ q) (hsp : p.src_port = q)
    (hs : ∀ pr, get_net_port p.src_ip pr t.src_map =
      if pr = q then some (netS, mS, q)
      else if pr = 0 then some (netS, mS, 0) else none)
    (hd : ∀ pr, get_net_port p.dst_ip pr t.dst_map =
      if pr = 0 then some (netD, mD, 0) else none) :
    t.match_flow p = hmGet (netS, mS, q, netD, mD, 0) t.flow_map := by
  rw [match_flow_eq_cascadeSpec]
  by_cases hpd : p.dst_port = 0
  · have hstep : matchStep t p = some 1 := by
      simp [matchStep, stepHit, stepPorts, hs, hd, hsp, hpd]
    rw [cascadeSpec_eq_of_step _ _ 1 hstep,
      stepExact_eq t p 1 netS mS q netD mD 0 (by simp [stepPorts, hs, hsp])
        (by simp [stepPorts, hd, hpd])]
  · have hstep : matchStep t p = some 3 := by
      simp [matchStep, stepHit, stepPorts, hs, hd, hsp, hpd, hq0]
    rw [cascadeSpec_eq_of_step _ _ 3 hstep,
      stepExact_eq t p 3 netS mS q netD mD 0 (by simp [stepPorts, hs, hsp])
        (by simp [stepPorts, hd])]

/-- The mirror image of `cascade_src_explicit`: the destination index
hits at the explicit port `q`, the source only at the wildcard. -/
theorem cascade_dst_explicit (t : FlowTable) (p : Packet)
    (netS mS netD mD q : Nat) (hq0 : (0 : Nat) ≠ q) (hdp : p.dst_port = q)
    (hs : ∀ pr, get_net_port p.src_ip pr t.src_map =
      if pr = 0 then some (netS, mS, 0) else none)
    (hd : ∀ pr, get_net_port p.dst_ip pr t.dst_map =
      if pr = q then some (netD, mD, q)
      else if pr = 0 then some (netD, mD, 0) else none) :
    t.match_flow p = hmGet (netS, mS, 0, netD, mD, q) t.flow_map := by
  rw [match_flow_eq_cascadeSpec]
  by_cases hsp : p.src_port = 0
  · have hstep : matchStep t p = some 1 := by
      simp [matchStep, stepHit, stepPorts, hs, hd, hsp, hdp]
    rw [cascadeSpec_eq_of_step _ _ 1 hstep,
      stepExact_eq t p 1 netS mS 0 netD mD q (by simp [stepPorts, hs, hsp])
        (by simp [stepPorts, hd, hdp])]
  · have hstep : matchStep t p = some 2 := by
      simp [matchStep, stepHit, stepPorts, hs, hd, hsp, hdp]
    rw [cascadeSpec_eq_of_step _ _ 2 hstep,
      stepExact_eq t p 2 netS mS 0 netD mD q (by simp [stepPorts, hs])
        (by simp [stepPorts, hd, hdp])]

/-- **C5**: with two rules identical in source and destination address
prefixes, one keyed at an explicit nonzero port and one at the wildcard
port 0, a packet matching the prefixes whose corresponding port equals
the explicit port classifies to the explicit rule's action, not the
wildcard rule's.  Stated for the explicit port on the source side
(first conjunct) and on the destination side (second conjunct); the
packet's other port is arbitrary. -/
theorem c5_port_specificity (netS pS netD pD q : Nat) (aE aW : Action)
    (hq : q ≠ 0) (hact : aE ≠ aW) :
    (∀ p : Packet, Nat.land p.src_ip (netmaskOfLen pS) = netS →
      Nat.land p.dst_ip (netmaskOfLen pD) = netD → p.src_port = q →
      (twoRuleTable (Flow.new ⟨netS, pS⟩ q ⟨netD, pD⟩ 0 aE)
        (Flow.new ⟨netS, pS⟩ 0 ⟨netD, pD⟩ 0 aW)).match_flow p = some aE) ∧
    (∀ p : Packet, Nat.land p.src_ip (netmaskOfLen pS) = netS →
      Nat.land p.dst_ip (netmaskOfLen pD) = netD → p.dst_port = q →
      (twoRuleTable (Flow.new ⟨netS, pS⟩ 0 ⟨netD, pD⟩ q aE)
        (Flow.new ⟨netS, pS⟩ 0 ⟨netD, pD⟩ 0 aW)).match_flow p = some aE) := by
  have h0q : (0 : Nat) ≠ q := Ne.symm hq
  constructor
  · intro p hin1 hin2 hsp
    have hmaps := portPair_mapsA netS pS netD pD q aE aW hq
    have hsm : (twoRuleTable (Flow.new ⟨netS, pS⟩ q ⟨netD, pD⟩ 0 aE)
        (Flow.new ⟨netS, pS⟩ 0 ⟨netD, pD⟩ 0 aW)).src_map =
        [(hostWild pS, [((netS, q), true), ((netS, 0), true)])] := by rw [hmaps]
    have hdm : (twoRuleTable (Flow.new ⟨netS, pS⟩ q ⟨netD, pD⟩ 0 aE)
        (Flow.new ⟨netS, pS⟩ 0 ⟨netD, pD⟩ 0 aW)).dst_map =
        [(hostWild pD, [((netD, 0), true)])] := by rw [hmaps]
    have hfm : (twoRuleTable (Flow.new ⟨netS, pS⟩ q ⟨netD, pD⟩ 0 aE)
        (Flow.new ⟨netS, pS⟩ 0 ⟨netD, pD⟩ 0 aW)).flow_map =
        [((netS, netmaskOfLen pS, q, netD, netmaskOfLen pD, 0), aE),
         ((netS, netmaskOfLen pS, 0, netD, netmaskOfLen pD, 0), aW)] := by
      rw [hmaps]
    have hs : ∀ pr, get_net_port p.src_ip pr (twoRuleTable
        (Flow.new ⟨netS, pS⟩ q ⟨netD, pD⟩ 0 aE)
        (Flow.new ⟨netS, pS⟩ 0 ⟨netD, pD⟩ 0 aW)).src_map =
        if pr = q then some (netS, netmaskOfLen pS, q)
        else if pr = 0 then some (netS, netmaskOfLen pS, 0) else none := fun pr => by
      rw [hsm, gnp_two_ports]
      by_cases h1 : pr = q <;> by_cases h2 : pr = 0 <;> simp [hin1, h1, h2]
    have hd : ∀ pr, get_net_port p.dst_ip pr (twoRuleTable
        (Flow.new ⟨netS, pS⟩ q ⟨netD, pD⟩ 0 aE)
        (Flow.new ⟨netS, pS⟩ 0 ⟨netD, pD⟩ 0 aW)).dst_map =
        if pr = 0 then some (netD, netmaskOfLen pD, 0) else none := fun pr => by
      rw [hdm, gnp_one]
      by_cases h2 : pr = 0 <;> simp [hin2, h2]
    rw [cascade_src_explicit _ p netS (netmaskOfLen pS) q netD (netmaskOfLen pD)
      h0q hsp hs hd, hfm]
    simp [hmGet]
  · intro p hin1 hin2 hdp
    have hmaps := portPair_mapsB netS pS netD pD q aE aW hq
    have hsm : (twoRuleTable (Flow.new ⟨netS, pS⟩ 0 ⟨netD, pD⟩ q aE)
        (Flow.new ⟨netS, pS⟩ 0 ⟨netD, pD⟩ 0 aW)).src_map =
        [(hostWild pS, [((netS, 0), true)])] := by rw [hmaps]
    have hdm : (twoRuleTable (Flow.new ⟨netS, pS⟩ 0 ⟨netD, pD⟩ q aE)
        (Flow.new ⟨netS, pS⟩ 0 ⟨netD, pD⟩ 0 aW)).dst_map =
        [(hostWild pD, [((netD, q), true), ((netD, 0), true)])] := by rw [hmaps]
    have hfm : (twoRuleTable (Flow.new ⟨netS, pS⟩ 0 ⟨netD, pD⟩ q aE)
        (Flow.new ⟨netS, pS⟩ 0 ⟨netD, pD⟩ 0 aW)).flow_map =
        [((netS, netmaskOfLen pS, 0, netD, netmaskOfLen pD, q), aE),
         ((netS, netmaskOfLen pS, 0, netD, netmaskOfLen pD, 0), aW)] := by
      rw [hmaps]
    have hs : ∀ pr, get_net_port p.src_ip pr (twoRuleTable
        (Flow.new ⟨netS, pS⟩ 0 ⟨netD, pD⟩ q aE)
        (Flow.new ⟨netS, pS⟩ 0 ⟨netD, pD⟩ 0 aW)).src_map =
        if pr = 0 then some (netS, netmaskOfLen pS, 0) else none := fun pr => by
      rw [hsm, gnp_one]
      by_cases h2 : pr = 0 <;> simp [hin1, h2]
    have hd : ∀ pr, get_net_port p.dst_ip pr (twoRuleTable
        (Flow.new ⟨netS, pS⟩ 0 ⟨netD, pD⟩ q aE)
        (Flow.new ⟨netS, pS⟩ 0 ⟨netD, pD⟩ 0 aW)).dst_map =
        if pr = q then some (netD, netmaskOfLen pD, q)
        else if pr = 0 then some (netD, netmaskOfLen pD, 0) else none := fun pr => by
      rw [hdm, gnp_two_ports]
      by_cases h1 : pr = q <;> by_cases h2 : pr = 0 <;> simp [hin2, h1, h2]
    rw [cascade_dst_explicit _ p netS (netmaskOfLen pS) netD (netmaskOfLen pD) q
      h0q hdp hs hd, hfm]
    simp [hmGet]

/-- Witness for `c5_port_specificity`: explicit port 80 beats the
wildcard rule on the source side and on the destination side. -/
theorem c5_port_specificity_witness :
    ((80 : Nat) ≠ 0 ∧ Action.Allow "exp" ≠ Action.Allow "wild" ∧
      Nat.land 0x01000005 (netmaskOfLen 24) = 0x01000000 ∧
      Nat.land 0x02000005 (netmaskOfLen 24) = 0x02000000) ∧
    (twoRuleTable (Flow.new ⟨0x01000000, 24⟩ 80 ⟨0x02000000, 24⟩ 0
        (Action.Allow "exp")) (Flow.new ⟨0x01000000, 24⟩ 0 ⟨0x02000000, 24⟩ 0
        (Action.Allow "wild"))).match_flow ⟨0x01000005, 0x02000005, 80, 9⟩ =
      some (Action.Allow "exp") ∧
    (twoRuleTable (Flow.new ⟨0x01000000, 24⟩ 0 ⟨0x02000000, 24⟩ 80
        (Action.Allow "exp")) (Flow.new ⟨0x01000000, 24⟩ 0 ⟨0x02000000, 24⟩ 0
        (Action.Allow "wild"))).match_flow ⟨0x01000005, 0x02000005, 9, 80⟩ =
      some (Action.Allow "exp") :=
  ⟨⟨by decide, by decide, by decide, by decide⟩,
   (c5_port_specificity 0x01000000 24 0x02000000 24 80
      (Action.Allow "exp") (Action.Allow "wild") (by decide) (by decide)).1
      ⟨0x01000005, 0x02000005, 80, 9⟩ (by decide) (by decide) (by decide),
   (c5_port_specificity 0x01000000 24 0x02000000 24 80
      (Action.Allow "exp") (Action.Allow "wild") (by decide) (by decide)).2
      ⟨0x01000005, 0x02000005, 9, 80⟩ (by decide) (by decide) (by decide)⟩

/-! ### C6 and C9: upsert semantics of the exact-match table -/

theorem hmInsert_hmInsert {κ ν : Type} [DecidableEq κ] (k : κ) (v1 v2 : ν)
    (m : List (κ × ν)) : hmInsert k v2 (hmInsert k v1 m) = hmInsert k v2 m := by
  induction m with
  | nil => simp [hmInsert]
  | cons e rest ih =>
    obtain ⟨k', v'⟩ := e
    by_cases h : k = k' <;> simp [hmInsert, h, ih]

theorem hmGet_hmInsert_self {κ ν : Type} [DecidableEq κ] (k : κ) (v : ν)
    (m : List (κ × ν)) : hmGet k (hmInsert k v m) = some v := by
  induction m with
  | nil => simp [hmInsert, hmGet]
  | cons e rest ih =>
    obtain ⟨k', v'⟩ := e
    by_cases h : k = k' <;> simp [hmInsert, hmGet, h, ih]

theorem hmGet_hmInsert_ne {κ ν : Type} [DecidableEq κ] (k k' : κ) (v : ν)
    (m : List (κ × ν)) (h : k ≠ k') : hmGet k (hmInsert k' v m) = hmGet k m := by
  induction m with
  | nil => simp [hmInsert, hmGet, h]
  | cons e rest ih =>
    obtain ⟨k'', v''⟩ := e
    by_cases h2 : k' = k'' <;> by_cases h3 : k = k'' <;>
      simp_all [hmInsert, hmGet]

theorem btGet_btInsert_self {ν : Type} (k : Nat) (v : ν)
    (m : List (Nat × ν)) : btGet k (btInsert k v m) = some v := by
  induction m with
  | nil => simp [btInsert, btGet]
  | cons e rest ih =>
    obtain ⟨k', v'⟩ := e
    rcases Nat.lt_trichotomy k k' with h | h | h
    · simp [btInsert, btGet, h, Nat.ne_of_lt h]
    · subst h
      simp [btInsert, btGet]
    · have h1 : ¬k < k' := by omega
      have h2 : k ≠ k' := by omega
      simp [btInsert, btGet, h1, h2, ih]

theorem btInsert_btInsert {ν : Type} (k : Nat) (v1 v2 : ν)
    (m : List (Nat × ν)) : btInsert k v2 (btInsert k v1 m) = btInsert k v2 m := by
  induction m with
  | nil => simp [btInsert]
  | cons e rest ih =>
    obtain ⟨k', v'⟩ := e
    rcases Nat.lt_trichotomy k k' with h | h | h
    · simp [btInsert, h, Nat.ne_of_lt h]
    · subst h
      simp [btInsert]
    · have h1 : ¬k < k' := by omega
      have h2 : k ≠ k' := by omega
      simp [btInsert, h1, h2, ih]

/-- Re-registering the same `(masked address, port)` pair at the same
prefix key leaves the index unchanged. -/
theorem idxInsert_idem (key net port : Nat) (m : NetMap) :
    idxInsert key net port (idxInsert key net port m) = idxInsert key net port m := by
  unfold idxInsert
  cases h : btGet key m <;>
    simp [h, btGet_btInsert_self, hmInsert_hmInsert, btInsert_btInsert]

/-- The /24 and /23 overlapping rules sharing masked addresses and
ports: equal under the claim's 4-component "normalized key", distinct
under the code's 6-component key. -/
def flow24 : Flow :=
  Flow.new ⟨0x05000000, 24⟩ 0 ⟨0x06000000, 24⟩ 0 (Action.Allow "a1")

def flow23 : Flow :=
  Flow.new ⟨0x05000000, 23⟩ 0 ⟨0x06000000, 23⟩ 0 (Action.Allow "a2")

def overlapTable : FlowTable := twoRuleTable flow24 flow23

/-- **C6, counterexample**: `flow24` and `flow23` agree on the claim's
(masked src, src port, masked dst, dst port) key and carry different
actions, yet after inserting `flow24` and then `flow23` the FIRST
rule's action is still what classification returns for `5.0.0.1 →
6.0.0.1` — nothing was overwritten, because the stored key also
contains the two netmasks. -/
theorem c6_counterexample :
    (flow24.src_net, flow24.src_port, flow24.dst_net, flow24.dst_port) =
      (flow23.src_net, flow23.src_port, flow23.dst_net, flow23.dst_port) ∧
    flow24.action ≠ flow23.action ∧
    overlapTable.match_flow ⟨0x05000001, 0x06000001, 0, 0⟩ =
      some flow24.action ∧
    overlapTable.match_flow ⟨0x05000001, 0x06000001, 0, 0⟩ ≠
      some flow23.action := by
  decide

/-- **C6** (amended): the exact-match key is the full 6-tuple
including both netmasks.  Inserting a rule whose **6-component** key
(masked addresses, netmasks and ports) equals that of a previously
inserted rule overwrites it: the resulting table state is identical to
inserting only the second rule (hence only the second action is
visible and no duplicate accumulates), and re-inserting the exact same
rule is idempotent — also at the prefix indices. -/
theorem c6_upsert_idempotent :
    (∀ (t : FlowTable) (r1 r2 : Flow),
      r1.src_net = r2.src_net → r1.src_mask = r2.src_mask →
      r1.src_port = r2.src_port → r1.dst_net = r2.dst_net →
      r1.dst_mask = r2.dst_mask → r1.dst_port = r2.dst_port →
      (t.add_flow r1).add_flow r2 = t.add_flow r2) ∧
    (∀ (t : FlowTable) (r : Flow), (t.add_flow r).add_flow r = t.add_flow r) := by
  have main : ∀ (t : FlowTable) (r1 r2 : Flow),
      r1.src_net = r2.src_net → r1.src_mask = r2.src_mask →
      r1.src_port = r2.src_port → r1.dst_net = r2.dst_net →
      r1.dst_mask = r2.dst_mask → r1.dst_port = r2.dst_port →
      (t.add_flow r1).add_flow r2 = t.add_flow r2 := by
    intro t r1 r2 h1 h2 h3 h4 h5 h6
    simp only [FlowTable.add_flow, h1, h2, h3, h4, h5, h6]
    simp [idxInsert_idem, hmInsert_hmInsert]
  exact ⟨main, fun t r => main t r r rfl rfl rfl rfl rfl rfl⟩

/-- Witness for `c6_upsert_idempotent`: overwriting the /24 rule's
action and re-inserting a rule verbatim. -/
theorem c6_upsert_idempotent_witness :
    (flow24.src_net = flow24.src_net ∧ flow24.src_mask = flow24.src_mask) ∧
    ((FlowTable.new.add_flow flow24).add_flow
        (Flow.new ⟨0x05000000, 24⟩ 0 ⟨0x06000000, 24⟩ 0 (Action.Allow "b")) =
      FlowTable.new.add_flow
        (Flow.new ⟨0x05000000, 24⟩ 0 ⟨0x06000000, 24⟩ 0 (Action.Allow "b"))) ∧
    ((FlowTable.new.add_flow flow24).add_flow flow24 =
      FlowTable.new.add_flow flow24) :=
  ⟨⟨rfl, rfl⟩,
   c6_upsert_idempotent.1 FlowTable.new flow24
     (Flow.new ⟨0x05000000, 24⟩ 0 ⟨0x06000000, 24⟩ 0 (Action.Allow "b"))
     (by decide) (by decide) (by decide) (by decide) (by decide) (by decide),
   c6_upsert_idempotent.2 FlowTable.new flow24⟩

/-- **C9**: the exact-match table key is the 6-tuple including both
netmasks, so rules with equal masked addresses and ports but different
prefix lengths live in distinct entries — the second insertion does
not overwrite the first (first conjunct) — and classification reaches
an entry only through a key whose netmasks are the ones resolved by
the prefix-index lookups for this packet (third conjunct); on the
/24 + /23 pair, each entry is returned exactly when the packet
resolves at its own prefix length (second conjunct). -/
theorem c9_netmasks_in_key :
    (∀ (t : FlowTable) (r1 r2 : Flow),
      (r1.src_net, r1.src_mask, r1.src_port, r1.dst_net, r1.dst_mask,
        r1.dst_port) ≠
      (r2.src_net, r2.src_mask, r2.src_port, r2.dst_net, r2.dst_mask,
        r2.dst_port) →
      hmGet (r1.src_net, r1.src_mask, r1.src_port, r1.dst_net, r1.dst_mask,
          r1.dst_port) ((t.add_flow r1).add_flow r2).flow_map = some r1.action ∧
      hmGet (r2.src_net, r2.src_mask, r2.src_port, r2.dst_net, r2.dst_mask,
          r2.dst_port) ((t.add_flow r1).add_flow r2).flow_map = some r2.action) ∧
    (overlapTable.match_flow ⟨0x05000001, 0x06000001, 0, 0⟩ =
        some flow24.action ∧
      overlapTable.match_flow ⟨0x05000101, 0x06000101, 0, 0⟩ =
        some flow23.action) ∧
    (∀ (t : FlowTable) (p : Packet) (a : Action), t.match_flow p = some a →
      ∃ i sn sm sp dn dm dp,
        get_net_port p.src_ip (stepPorts p i).1 t.src_map = some (sn, sm, sp) ∧
        get_net_port p.dst_ip (stepPorts p i).2 t.dst_map = some (dn, dm, dp) ∧
        hmGet (sn, sm, sp, dn, dm, dp) t.flow_map = some a) := by
  refine ⟨fun t r1 r2 hne => ?_, ⟨by decide, by decide⟩, fun t p a h => ?_⟩
  · constructor
    · simp only [FlowTable.add_flow]
      rw [hmGet_hmInsert_ne _ _ _ _ hne, hmGet_hmInsert_self]
    · simp only [FlowTable.add_flow]
      rw [hmGet_hmInsert_self]
  · rw [match_flow_eq_cascadeSpec] at h
    cases hms : matchStep t p with
    | none =>
      rw [cascadeSpec_eq_none _ _ hms] at h
      exact absurd h (by simp)
    | some i =>
      rw [cascadeSpec_eq_of_step _ _ i hms] at h
      unfold stepExact at h
      cases hs' : get_net_port p.src_ip (stepPorts p i).1 t.src_map with
      | none =>
        rw [hs'] at h
        simp at h
      | some strip =>
        obtain ⟨sn, sm, sp⟩ := strip
        cases hd' : get_net_port p.dst_ip (stepPorts p i).2 t.dst_map with
        | none =>
          rw [hs', hd'] at h
          simp at h
        | some dtrip =>
          obtain ⟨dn, dm, dp⟩ := dtrip
          rw [hs', hd'] at h
          exact ⟨i, sn, sm, sp, dn, dm, dp, hs', hd', h⟩

/-- Witness for `c9_netmasks_in_key`: the /24 and /23 rules have
distinct 6-component keys and both actions stay retrievable; the
classification of `5.0.0.1 → 6.0.0.1` factors through the resolved
(most specific) masks. -/
theorem c9_netmasks_in_key_witness :
    ((flow24.src_net, flow24.src_mask, flow24.src_port, flow24.dst_net,
        flow24.dst_mask, flow24.dst_port) ≠
      (flow23.src_net, flow23.src_mask, flow23.src_port, flow23.dst_net,
        flow23.dst_mask, flow23.dst_port) ∧
      overlapTable.match_flow ⟨0x05000001, 0x06000001, 0, 0⟩ =
        some flow24.action) ∧
    (hmGet (flow24.src_net, flow24.src_mask, flow24.src_port, flow24.dst_net,
        flow24.dst_mask, flow24.dst_port)
        ((FlowTable.new.add_flow flow24).add_flow flow23).flow_map =
      some flow24.action ∧
     hmGet (flow23.src_net, flow23.src_mask, flow23.src_port, flow23.dst_net,
        flow23.dst_mask, flow23.dst_port)
        ((FlowTable.new.add_flow flow24).add_flow flow23).flow_map =
      some flow23.action) ∧
    (∃ i sn sm sp dn dm dp,
      get_net_port (0x05000001 : Nat)
        (stepPorts ⟨0x05000001, 0x06000001, 0, 0⟩ i).1 overlapTable.src_map =
        some (sn, sm, sp) ∧
      get_net_port (0x06000001 : Nat)
        (stepPorts ⟨0x05000001, 0x06000001, 0, 0⟩ i).2 overlapTable.dst_map =
        some (dn, dm, dp) ∧
      hmGet (sn, sm, sp, dn, dm, dp) overlapTable.flow_map =
        some flow24.action) :=
  ⟨⟨by decide, by decide⟩,
   c9_netmasks_in_key.1 FlowTable.new flow24 flow23 (by decide),
   c9_netmasks_in_key.2.2 overlapTable ⟨0x05000001, 0x06000001, 0, 0⟩
     flow24.action (by decide)⟩

/-! ### C8: addresses are stored as supplied, not masked -/

theorem hmGetKeyValue_hmInsert_self {κ ν : Type} [DecidableEq κ] (k : κ)
    (v : ν) (m : List (κ × ν)) :
    hmGetKeyValue k (hmInsert k v m) = some (k, v) := by
  induction m with
  | nil => simp [hmInsert, hmGetKeyValue]
  | cons e rest ih =>
    obtain ⟨k', v'⟩ := e
    by_cases h : k = k' <;> simp [hmInsert, hmGetKeyValue, h, ih]

/-- A rule whose source address keeps a host bit set inside a /24
prefix, and the same rule with the masked network address. -/
def hostBitsFlow : Flow :=
  Flow.new ⟨0x01000001, 24⟩ 0 ⟨0x02000000, 24⟩ 0 Action.Deny

def maskedFlow : Flow :=
  Flow.new ⟨0x01000000, 24⟩ 0 ⟨0x02000000, 24⟩ 0 Action.Deny

/-- **C8, counterexample**: `Flow::new` keeps the supplied address
verbatim (`1.0.0.1`, host bit set, is stored — not `1.0.0.0`), and the
two variants of the rule are NOT matched by the same packets: the
packet `1.0.0.1 → 2.0.0.1` matches the masked variant but not the
host-bits variant, because lookups mask the packet's address while the
stored network keeps its host bit. -/
theorem c8_counterexample :
    hostBitsFlow.src_net = 0x01000001 ∧
    hostBitsFlow.src_net ≠ Nat.land hostBitsFlow.src_net hostBitsFlow.src_mask ∧
    (FlowTable.new.add_flow maskedFlow).match_flow
      ⟨0x01000001, 0x02000001, 0, 0⟩ = some Action.Deny ∧
    (FlowTable.new.add_flow hostBitsFlow).match_flow
      ⟨0x01000001, 0x02000001, 0, 0⟩ = none := by
  decide

/-- **C8** (amended): insertion performs no masking.  The address
fields are stored exactly as supplied in both prefix indices and in
the exact-match key (first three conjuncts, for every table and rule);
consequently a rule whose source address has host bits set under its
own netmask is unreachable: in an otherwise empty table it matches no
packet at all, unlike the same rule supplied pre-masked (last
conjunct).  Masking happens only on the packet side, inside
`get_net_port`. -/
theorem c8_no_masking_on_insert :
    (∀ (t : FlowTable) (f : Flow), ∃ inner,
      btGet (4294967295 - f.src_mask) (t.add_flow f).src_map = some inner ∧
      hmGetKeyValue (f.src_net, f.src_port) inner =
        some ((f.src_net, f.src_port), true)) ∧
    (∀ (t : FlowTable) (f : Flow), ∃ inner,
      btGet (4294967295 - f.dst_mask) (t.add_flow f).dst_map = some inner ∧
      hmGetKeyValue (f.dst_net, f.dst_port) inner =
        some ((f.dst_net, f.dst_port), true)) ∧
    (∀ (t : FlowTable) (f : Flow),
      hmGet (f.src_net, f.src_mask, f.src_port, f.dst_net, f.dst_mask,
        f.dst_port) (t.add_flow f).flow_map = some f.action) ∧
    (∀ (f : Flow) (p : Packet), f.src_mask ≤ 4294967295 →
      Nat.land f.src_net f.src_mask ≠ f.src_net →
      (FlowTable.new.add_flow f).match_flow p = none) := by
  refine ⟨fun t f => ?_, fun t f => ?_, fun t f => ?_, fun f p hm hraw => ?_⟩
  · cases h : btGet (4294967295 - f.src_mask) t.src_map with
    | some inner =>
      refine ⟨hmInsert (f.src_net, f.src_port) true inner, ?_,
        hmGetKeyValue_hmInsert_self _ _ _⟩
      simp [FlowTable.add_flow, idxInsert, h, btGet_btInsert_self]
    | none =>
      refine ⟨hmInsert (f.src_net, f.src_port) true [], ?_,
        hmGetKeyValue_hmInsert_self _ _ _⟩
      simp [FlowTable.add_flow, idxInsert, h, btGet_btInsert_self]
  · cases h : btGet (4294967295 - f.dst_mask) t.dst_map with
    | some inner =>
      refine ⟨hmInsert (f.dst_net, f.dst_port) true inner, ?_,
        hmGetKeyValue_hmInsert_self _ _ _⟩
      simp [FlowTable.add_flow, idxInsert, h, btGet_btInsert_self]
    | none =>
      refine ⟨hmInsert (f.dst_net, f.dst_port) true [], ?_,
        hmGetKeyValue_hmInsert_self _ _ _⟩
      simp [FlowTable.add_flow, idxInsert, h, btGet_btInsert_self]
  · simp [FlowTable.add_flow, hmGet_hmInsert_self]
  · have hs : ∀ q, get_net_port p.src_ip q (FlowTable.new.add_flow f).src_map =
        none := by
      intro q
      have hmap : (FlowTable.new.add_flow f).src_map =
          [(4294967295 - f.src_mask, [((f.src_net, f.src_port), true)])] := by
        simp [FlowTable.add_flow, FlowTable.new, idxInsert, btGet, btInsert,
          hmInsert]
      rw [hmap]
      have hmb : 4294967295 - (4294967295 - f.src_mask) = f.src_mask := by omega
      have hner : Nat.land p.src_ip f.src_mask ≠ f.src_net := fun he =>
        hraw (by rw [← he, land_land])
      simp [get_net_port, hmGetKeyValue, hmb, hner, Prod.mk.injEq]
    rw [match_flow_eq_cascadeSpec]
    have hms : matchStep (FlowTable.new.add_flow f) p = none := by
      simp [matchStep, stepHit, hs]
    exact cascadeSpec_eq_none _ _ hms

/-- Witness for `c8_no_masking_on_insert`: the host-bits rule is
stored raw and matches nothing. -/
theorem c8_no_masking_on_insert_witness :
    (hostBitsFlow.src_mask ≤ 4294967295 ∧
      Nat.land hostBitsFlow.src_net hostBitsFlow.src_mask ≠
        hostBitsFlow.src_net) ∧
    hmGet (hostBitsFlow.src_net, hostBitsFlow.src_mask, hostBitsFlow.src_port,
      hostBitsFlow.dst_net, hostBitsFlow.dst_mask, hostBitsFlow.dst_port)
      (FlowTable.new.add_flow hostBitsFlow).flow_map =
        some hostBitsFlow.action ∧
    (FlowTable.new.add_flow hostBitsFlow).match_flow
      ⟨0x01000001, 0x02000001, 80, 80⟩ = none :=
  ⟨⟨by decide, by decide⟩,
   c8_no_masking_on_insert.2.2.1 FlowTable.new hostBitsFlow,
   c8_no_masking_on_insert.2.2.2 hostBitsFlow ⟨0x01000001, 0x02000001, 80, 80⟩
     (by decide) (by decide)⟩

/-! ### C4: the index lookup is a longest-prefix match -/

theorem hmGetKeyValue_eq_key {κ ν : Type} [DecidableEq κ] (k : κ)
    (m : List (κ × ν)) (kv : κ × ν) (h : hmGetKeyValue k m = some kv) :
    kv.1 = k := by
  induction m with
  | nil => simp [hmGetKeyValue] at h
  | cons e rest ih =>
    obtain ⟨k', v'⟩ := e
    by_cases he : k = k'
    · simp [hmGetKeyValue, he] at h
      simp [← h, he]
    · simp [hmGetKeyValue, he] at h
      exact ih h

/-- A successful `get_net_port` returns the packet's address masked at
some registered length `p` that hits, together with that netmask and
the probed port — and `p` is the longest hitting registered length. -/
theorem gnp_some_longest (m : NetMap)
    (hsort : List.Pairwise (fun a b => a.1 < b.1) m)
    (hkeys : ∀ e ∈ m, ∃ p, p ≤ 32 ∧ e.1 = hostWild p)
    (ip port net mb prt : Nat)
    (h : get_net_port ip port m = some (net, mb, prt)) :
    ∃ p inner, p ≤ 32 ∧ (hostWild p, inner) ∈ m ∧
      hmGetKeyValue (Nat.land ip (netmaskOfLen p), port) inner ≠ none ∧
      net = Nat.land ip (netmaskOfLen p) ∧ mb = netmaskOfLen p ∧ prt = port ∧
      ∀ q inner2, q ≤ 32 → (hostWild q, inner2) ∈ m →
        hmGetKeyValue (Nat.land ip (netmaskOfLen q), port) inner2 ≠ none →
        q ≤ p := by
  induction m with
  | nil => simp [get_net_port] at h
  | cons e rest ih =>
    obtain ⟨k0, inner0⟩ := e
    obtain ⟨p0, hp0le, hk0⟩ := hkeys (k0, inner0) (List.mem_cons_self _ _)
    simp only at hk0
    subst hk0
    obtain ⟨hrel, hsort'⟩ := List.pairwise_cons.mp hsort
    cases hh : hmGetKeyValue (Nat.land ip (4294967295 - hostWild p0), port)
        inner0 with
    | some kv =>
      obtain ⟨⟨kn, kp⟩, kv2⟩ := kv
      have hkey := hmGetKeyValue_eq_key _ _ _ hh
      simp only [Prod.mk.injEq] at hkey
      simp only [get_net_port, hh, Option.some.injEq, Prod.mk.injEq] at h
      refine ⟨p0, inner0, hp0le, List.mem_cons_self _ _, ?_, ?_, ?_, ?_, ?_⟩
      · rw [maskBin_hostWild] at hh
        simp [hh]
      · rw [← h.1, hkey.1, maskBin_hostWild]
      · rw [← h.2.1, maskBin_hostWild]
      · rw [← h.2.2, hkey.2]
      · intro q inner2 hq32 hmem hhit
        rcases List.mem_cons.mp hmem with heq | hmem'
        · have : hostWild q = hostWild p0 := congrArg Prod.fst heq
          exact le_of_eq (hostWild_inj hq32 hp0le this)
        · have hlt : hostWild p0 < hostWild q := hrel _ hmem'
          have := (hostWild_lt_hostWild hp0le hq32).mp hlt
          omega
    | none =>
      simp only [get_net_port, hh] at h
      obtain ⟨p, inner, hple, hmem, hhit, hnet, hmb, hprt, hmax⟩ :=
        ih hsort' (fun e he => hkeys e (List.mem_cons_of_mem _ he)) h
      refine ⟨p, inner, hple, List.mem_cons_of_mem _ hmem, hhit, hnet, hmb,
        hprt, ?_⟩
      intro q inner2 hq32 hmem2 hhit2
      rcases List.mem_cons.mp hmem2 with heq | hmem'
      · exfalso
        have hqp : hostWild q = hostWild p0 := congrArg Prod.fst heq
        have hq : q = p0 := hostWild_inj hq32 hp0le hqp
        have hinner : inner2 = inner0 := congrArg Prod.snd heq
        rw [hq, hinner] at hhit2
        rw [maskBin_hostWild] at hh
        exact hhit2 hh
      · exact hmax q inner2 hq32 hmem' hhit2

/-- `get_net_port` misses exactly when every registered prefix length
misses the packet's masked address at the probed port. -/
theorem gnp_none_iff (m : NetMap)
    (hkeys : ∀ e ∈ m, ∃ p, p ≤ 32 ∧ e.1 = hostWild p) (ip port : Nat) :
    get_net_port ip port m = none ↔
      ∀ p inner, p ≤ 32 → (hostWild p, inner) ∈ m →
        hmGetKeyValue (Nat.land ip (netmaskOfLen p), port) inner = none := by
  induction m with
  | nil => simp [get_net_port]
  | cons e rest ih =>
    obtain ⟨k0, inner0⟩ := e
    obtain ⟨p0, hp0le, hk0⟩ := hkeys (k0, inner0) (List.mem_cons_self _ _)
    simp only at hk0
    subst hk0
    have ih' := ih (fun e he => hkeys e (List.mem_cons_of_mem _ he))
    cases hh : hmGetKeyValue (Nat.land ip (4294967295 - hostWild p0), port)
        inner0 with
    | some kv =>
      simp only [get_net_port, hh]
      constructor
      · intro hfalse
        exact absurd hfalse (by simp)
      · intro hall
        exfalso
        have := hall p0 inner0 hp0le (List.mem_cons_self _ _)
        rw [maskBin_hostWild] at hh
        rw [this] at hh
        exact Option.noConfusion hh
    | none =>
      simp only [get_net_port, hh]
      rw [ih']
      constructor
      · intro hall p inner hple hmem
        rcases List.mem_cons.mp hmem with heq | hmem'
        · have hqp : hostWild p = hostWild p0 := congrArg Prod.fst heq
          have hp : p = p0 := hostWild_inj hple hp0le hqp
          have hinner : inner = inner0 := congrArg Prod.snd heq
          rw [hp, hinner, ← maskBin_hostWild]
          exact hh
        · exact hall p inner hple hmem'
      · intro hall p inner hple hmem
        exact hall p inner hple (List.mem_cons_of_mem _ hmem)

/-- **C4**: over any index state whose keys are the registered prefix
lengths' host-wildcard values (as `add_flow` produces, key
`4294967295 - netmask(p) = 2^(32-p) - 1`, first conjunct) kept in
ascending `BTreeMap` order — strictly antitone in `p`, so longer
prefixes are visited first (second conjunct) — `get_net_port` returns
the `(masked address, netmask, port)` triple of the longest registered
length whose `(address & mask(p), port)` pair was registered (third
conjunct), and returns none exactly when no registered length matches
(fourth conjunct). -/
theorem c4_longest_prefix_lookup :
    (∀ p : Nat, p ≤ 32 → 4294967295 - netmaskOfLen p = 2 ^ (32 - p) - 1) ∧
    (∀ p q : Nat, p ≤ 32 → q ≤ 32 → (hostWild p < hostWild q ↔ q < p)) ∧
    (∀ (m : NetMap), List.Pairwise (fun a b => a.1 < b.1) m →
      (∀ e ∈ m, ∃ p, p ≤ 32 ∧ e.1 = hostWild p) →
      ∀ ip port net mb prt, get_net_port ip port m = some (net, mb, prt) →
        ∃ p inner, p ≤ 32 ∧ (hostWild p, inner) ∈ m ∧
          hmGetKeyValue (Nat.land ip (netmaskOfLen p), port) inner ≠ none ∧
          net = Nat.land ip (netmaskOfLen p) ∧ mb = netmaskOfLen p ∧
          prt = port ∧
          ∀ q inner2, q ≤ 32 → (hostWild q, inner2) ∈ m →
            hmGetKeyValue (Nat.land ip (netmaskOfLen q), port) inner2 ≠ none →
            q ≤ p) ∧
    (∀ (m : NetMap), (∀ e ∈ m, ∃ p, p ≤ 32 ∧ e.1 = hostWild p) →
      ∀ ip port, get_net_port ip port m = none ↔
        ∀ p inner, p ≤ 32 → (hostWild p, inner) ∈ m →
          hmGetKeyValue (Nat.land ip (netmaskOfLen p), port) inner = none) :=
  ⟨fun p hp => hostWild_key p hp,
   fun p q hp hq => hostWild_lt_hostWild hp hq,
   fun m hsort hkeys ip port net mb prt h =>
     gnp_some_longest m hsort hkeys ip port net mb prt h,
   fun m hkeys ip port => gnp_none_iff m hkeys ip port⟩

/-- Witness for `c4_longest_prefix_lookup` on the index of
`overlapTable` (prefix lengths 24 and 23 registered for `5.0.0.0`): the
lookup of `5.0.0.1` resolves at length 24, the longest hit. -/
theorem c4_longest_prefix_lookup_witness :
    ((23 : Nat) ≤ 32 ∧
      List.Pairwise (fun (a b : Nat × List ((Nat × Nat) × Bool)) => a.1 < b.1)
        overlapTable.src_map ∧
      get_net_port 0x05000001 0 overlapTable.src_map =
        some (0x05000000, netmaskOfLen 24, 0)) ∧
    (4294967295 - netmaskOfLen 23 = 2 ^ (32 - 23) - 1) ∧
    (hostWild 24 < hostWild 23 ↔ (23 : Nat) < 24) ∧
    (∃ p inner, p ≤ 32 ∧ (hostWild p, inner) ∈ overlapTable.src_map ∧
      hmGetKeyValue (Nat.land 0x05000001 (netmaskOfLen p), 0) inner ≠ none ∧
      (0x05000000 : Nat) = Nat.land 0x05000001 (netmaskOfLen p) ∧
      netmaskOfLen 24 = netmaskOfLen p ∧ (0 : Nat) = 0 ∧
      ∀ q inner2, q ≤ 32 → (hostWild q, inner2) ∈ overlapTable.src_map →
        hmGetKeyValue (Nat.land 0x05000001 (netmaskOfLen q), 0) inner2 ≠
          none → q ≤ p) :=
  ⟨⟨by decide, by decide, by decide⟩,
   c4_longest_prefix_lookup.1 23 (by decide),
   c4_longest_prefix_lookup.2.1 24 23 (by decide) (by decide),
   c4_longest_prefix_lookup.2.2.1 overlapTable.src_map (by decide)
     (by
       intro e he
       have hmap : overlapTable.src_map =
           [(hostWild 24, [((0x05000000, 0), true)]),
            (hostWild 23, [((0x05000000, 0), true)])] := by decide
       rw [hmap] at he
       simp only [List.mem_cons, List.not_mem_nil, or_false] at he
       rcases he with he | he
       · exact ⟨24, by decide, by rw [he]⟩
       · exact ⟨23, by decide, by rw [he]⟩)
     0x05000001 0 0x05000000 (netmaskOfLen 24) 0 (by decide)⟩

/-! ### C7: validated insertion (modelled from the spec) -/

/-- The spec's `Rule` (§3): two prefixes carried as (address, length)
pairs, two port patterns, and an action. -/
structure Rule where
  src : Ipv4Net
  srcPort : Nat
  dst : Ipv4Net
  dstPort : Nat
  action : Action
deriving DecidableEq, Repr

inductive ValidationError where
  | lenOutOfRange : ValidationError
deriving DecidableEq, Repr

/-- Modelled from the spec: the validating
`insert_rule(rule: Rule) -> Result<(), ValidationError>` of §6 ("Fails
with a ValidationError if prefix length > 32", §4.2/§7) is absent from
`src/` — the repository's `add_flow` takes an already-built `Flow`
(whose netmasks come from `ipnet`, which rejects lengths above 32 in
its own constructor) and has no error path.  The model checks both
prefix lengths against 32 and otherwise delegates to the embedded
`add_flow`; the error case returns no table, so the caller's table —
its previously inserted rules and their lookup behaviour — is
untouched. -/
def insert_rule (t : FlowTable) (r : Rule) : Except ValidationError FlowTable :=
  if 32 < r.src.len ∨ 32 < r.dst.len then .error .lenOutOfRange
  else .ok (t.add_flow (Flow.new r.src r.srcPort r.dst r.dstPort r.action))

/-- **C7**: insertion fails with a `ValidationError` exactly when a
prefix length exceeds 32 (first conjunct); a failing insertion returns
the error without producing any table, rejecting only the offending
rule and leaving the previously built table — hence every earlier
rule and its lookup behaviour — unchanged (second conjunct); insertion
with both prefix lengths in `0..=32` succeeds, delegating to the
code's `add_flow` (third conjunct). -/
theorem c7_insert_validation :
    (∀ (t : FlowTable) (r : Rule),
      (∃ e, insert_rule t r = .error e) ↔
        32 < r.src.len ∨ 32 < r.dst.len) ∧
    (∀ (t : FlowTable) (r : Rule), 32 < r.src.len ∨ 32 < r.dst.len →
      insert_rule t r = .error .lenOutOfRange) ∧
    (∀ (t : FlowTable) (r : Rule), r.src.len ≤ 32 → r.dst.len ≤ 32 →
      insert_rule t r =
        .ok (t.add_flow (Flow.new r.src r.srcPort r.dst r.dstPort
          r.action))) := by
  refine ⟨fun t r => ?_, fun t r h => ?_, fun t r h1 h2 => ?_⟩
  · by_cases h : 32 < r.src.len ∨ 32 < r.dst.len <;> simp [insert_rule, h]
    exact ⟨.lenOutOfRange, trivial⟩
  · simp [insert_rule, h]
  · have h : ¬(32 < r.src.len ∨ 32 < r.dst.len) := by omega
    simp [insert_rule, h]

/-- Witness for `c7_insert_validation`: a /33 rule is rejected (and
only it — no table is produced), a /24 rule is accepted. -/
theorem c7_insert_validation_witness :
    ((32 : Nat) < 33 ∨ (32 : Nat) < 24) ∧
    insert_rule FlowTable.new
      ⟨⟨0x05000000, 33⟩, 0, ⟨0x06000000, 24⟩, 0, Action.Deny⟩ =
      .error .lenOutOfRange ∧
    ((24 : Nat) ≤ 32 ∧
      insert_rule FlowTable.new
        ⟨⟨0x05000000, 24⟩, 0, ⟨0x06000000, 24⟩, 0, Action.Deny⟩ =
        .ok (FlowTable.new.add_flow (Flow.new ⟨0x05000000, 24⟩ 0
          ⟨0x06000000, 24⟩ 0 Action.Deny))) :=
  ⟨by decide,
   c7_insert_validation.2.1 FlowTable.new
     ⟨⟨0x05000000, 33⟩, 0, ⟨0x06000000, 24⟩, 0, Action.Deny⟩ (by decide),
   by decide,
   c7_insert_validation.2.2 FlowTable.new
     ⟨⟨0x05000000, 24⟩, 0, ⟨0x06000000, 24⟩, 0, Action.Deny⟩ (by decide)
     (by decide)⟩

/-! ### C10: `Rc::get_mut` and unique ownership -/

/-- A reference-counted cell: the shared value together with the
strong reference count seen by this handle. -/
structure RcCell (α : Type) where
  strong : Nat
  value : α

/-- `Rc::get_mut`: mutable access is granted exactly to a unique owner
(strong count 1; the program creates no weak handles).  `none` is the
case in which the source's `.unwrap()` panics. -/
def RcCell.get_mut {α : Type} (r : RcCell α) : Option α :=
  if r.strong = 1 then some r.value else none

/-- `FlowTable` with its `Rc` wrappers made explicit. -/
structure FlowTableRc where
  src_map : RcCell NetMap
  dst_map : RcCell NetMap
  flow_map : RcCell ExactMap

/-- The derived `Clone` of `FlowTable`: cloning clones each `Rc`
handle, bumping every strong count; both resulting handles (the
original and the clone) afterwards see the incremented counts. -/
def FlowTableRc.clone (t : FlowTableRc) : FlowTableRc × FlowTableRc :=
  (⟨⟨t.src_map.strong + 1, t.src_map.value⟩,
    ⟨t.dst_map.strong + 1, t.dst_map.value⟩,
    ⟨t.flow_map.strong + 1, t.flow_map.value⟩⟩,
   ⟨⟨t.src_map.strong + 1, t.src_map.value⟩,
    ⟨t.dst_map.strong + 1, t.dst_map.value⟩,
    ⟨t.flow_map.strong + 1, t.flow_map.value⟩⟩)

/-- The pure table carried by the three handles. -/
def FlowTableRc.value (t : FlowTableRc) : FlowTable :=
  ⟨t.src_map.value, t.dst_map.value, t.flow_map.value⟩

/-- `add_flow` with the three `Rc::get_mut(..).unwrap()` calls of the
source made explicit: `none` models the panic of an `unwrap` on a
shared handle; on success the maps are updated exactly as in
`add_flow`. -/
def addFlowRc (t : FlowTableRc) (flow : Flow) : Option FlowTableRc :=
  match t.src_map.get_mut with
  | none => none
  | some src =>
    match t.dst_map.get_mut with
    | none => none
    | some dst =>
      match t.flow_map.get_mut with
      | none => none
      | some fm =>
        some ⟨⟨t.src_map.strong,
                idxInsert (4294967295 - flow.src_mask) flow.src_net
                  flow.src_port src⟩,
              ⟨t.dst_map.strong,
                idxInsert (4294967295 - flow.dst_mask) flow.dst_net
                  flow.dst_port dst⟩,
              ⟨t.flow_map.strong,
                hmInsert (flow.src_net, flow.src_mask, flow.src_port,
                  flow.dst_net, flow.dst_mask, flow.dst_port) flow.action
                  fm⟩⟩

/-- **C10**: `add_flow` mutates through `Rc::get_mut(..).unwrap()`, so
insertion succeeds exactly when every map handle is uniquely owned
(first conjunct); a successful insertion performs exactly the pure
`add_flow` update on the carried table (second conjunct); and for
every table of which a clone sharing the `Rc` handles is alive —
strong counts at least 2 on both handles — `add_flow` panics instead
of mutating, on the original handle as well as on the clone, so a
shared (frozen) table is never mutated in place (third conjunct). -/
theorem c10_add_flow_requires_unique_ownership :
    (∀ (t : FlowTableRc) (f : Flow),
      (addFlowRc t f).isSome ↔
        t.src_map.strong = 1 ∧ t.dst_map.strong = 1 ∧
          t.flow_map.strong = 1) ∧
    (∀ (t : FlowTableRc) (f : Flow) (t' : FlowTableRc),
      addFlowRc t f = some t' → t'.value = t.value.add_flow f) ∧
    (∀ (t : FlowTableRc) (f : Flow), 1 ≤ t.src_map.strong →
      addFlowRc t.clone.1 f = none ∧ addFlowRc t.clone.2 f = none) := by
  refine ⟨fun t f => ?_, fun t f t' h => ?_, fun t f h1 => ?_⟩
  · by_cases h1 : t.src_map.strong = 1 <;>
      by_cases h2 : t.dst_map.strong = 1 <;>
      by_cases h3 : t.flow_map.strong = 1 <;>
      simp [addFlowRc, RcCell.get_mut, h1, h2, h3]
  · by_cases h1 : t.src_map.strong = 1 <;>
      by_cases h2 : t.dst_map.strong = 1 <;>
      by_cases h3 : t.flow_map.strong = 1 <;>
      simp [addFlowRc, RcCell.get_mut, h1, h2, h3] at h <;>
      simp [← h, FlowTableRc.value, FlowTable.add_flow]
  · have hs : t.src_map.strong + 1 ≠ 1 := by omega
    exact ⟨by simp [addFlowRc, RcCell.get_mut, FlowTableRc.clone, hs],
           by simp [addFlowRc, RcCell.get_mut, FlowTableRc.clone, hs]⟩

/-- Witness for `c10_add_flow_requires_unique_ownership`: a freshly
built unique table accepts an insertion that matches the pure
`add_flow`, and after cloning, both handles panic. -/
theorem c10_add_flow_requires_unique_ownership_witness :
    ((addFlowRc ⟨⟨1, []⟩, ⟨1, []⟩, ⟨1, []⟩⟩ flow24).isSome ↔
      (1 : Nat) = 1 ∧ (1 : Nat) = 1 ∧ (1 : Nat) = 1) ∧
    ((1 : Nat) ≤ 1 ∧
      addFlowRc (FlowTableRc.clone ⟨⟨1, []⟩, ⟨1, []⟩, ⟨1, []⟩⟩).1 flow24 =
        none ∧
      addFlowRc (FlowTableRc.clone ⟨⟨1, []⟩, ⟨1, []⟩, ⟨1, []⟩⟩).2 flow24 =
        none) :=
  ⟨c10_add_flow_requires_unique_ownership.1 ⟨⟨1, []⟩, ⟨1, []⟩, ⟨1, []⟩⟩ flow24,
   by decide,
   (c10_add_flow_requires_unique_ownership.2.2 ⟨⟨1, []⟩, ⟨1, []⟩, ⟨1, []⟩⟩
     flow24 (by decide)).1,
   (c10_add_flow_requires_unique_ownership.2.2 ⟨⟨1, []⟩, ⟨1, []⟩, ⟨1, []⟩⟩
     flow24 (by decide)).2⟩

end AclTest
